import Mathlib

/-!
# Verification of the shipyard config core (pkg/config)

Shallow embedding of `pkg/config/config.go` and of the block-dispatch loop of
`ParseHCLFile`.  Go strings become Lean `String`; slices become `List`; a Go
runtime panic (index out of range) is modelled by an outer `Option` whose
`none` is the panic; a Go `error` result is an `Option ConfigError` (with
`none` for Go `nil`).  Functions that mutate the receiver `*Config` thread the
config state explicitly and return the updated value.
-/

/-- config.Status: the current state of a resource. -/
inductive Status where
  | applied
  | pending_creation
  | pending_modification
  | failed
deriving DecidableEq, Repr

/-- config.ResourceInfo: the embedded identity type of every resource.
The Go field `Type` (a `ResourceType`, i.e. a string tag) is named `type_`
here because `Type` is a Lean keyword. -/
structure ResourceInfo where
  Name : String
  type_ : String
  Status : Status
  DependsOn : List String
deriving DecidableEq, Repr

/-- A config resource value: Go's `Resource` interface exposes `Info()`;
variant-specific fields are opaque to the core logic (spec section 3), so the
embedding carries the `ResourceInfo` plus the one variant field the claims
mention (a network's `Subnet`). -/
structure Resource where
  info : ResourceInfo
  Subnet : String := ""
deriving DecidableEq, Repr

/-- Modelled from the spec: the `Blueprint` type is declared in a repository
file that is not among the sources; the spec describes it as descriptive
metadata outside the core scope, so it is embedded as an opaque record. -/
structure Blueprint where
  data : String := ""
deriving DecidableEq, Repr

/-- config.Config: the root aggregate, a blueprint pointer (nil = `none`)
plus the ordered resource list. -/
structure Config where
  Blueprint : Option Blueprint := none
  Resources : List Resource := []
deriving DecidableEq, Repr

/-- The error values produced by config.go: `ResourceNotFoundError{Name}`,
`ResourceExistsError{Name}` and the wrapping produced by
`xerrors.Errorf("...: %w", err)`. -/
inductive ConfigError where
  | ResourceNotFoundError (Name : String)
  | ResourceExistsError (Name : String)
  | WrappedError (msg : String) (inner : ConfigError)
deriving DecidableEq, Repr

deriving instance DecidableEq for Except

/-- golang.org/x/xerrors.Is for the error values of config.go: these are
comparable struct values without an `Is` method, so `Is(err, target)` holds
exactly when some error in `err`'s unwrap chain equals `target`.  Only
`WrappedError` (from `xerrors.Errorf` with `%w`) unwraps. -/
def xerrorsIs (e target : ConfigError) : Bool :=
  if e = target then true
  else
    match e with
    | ConfigError.WrappedError _ inner => xerrorsIs inner target
    | _ => false

/-- Go `strings.Split(s, ".")` on the character-list view of the string:
splits on every occurrence of the separator and always yields at least one
(possibly empty) segment. -/
def splitDot : List Char → List (List Char)
  | [] => [[]]
  | a :: rest =>
    if a = '.' then [] :: splitDot rest
    else
      match splitDot rest with
      | [] => [[a]]
      | p :: ps => (a :: p) :: ps

/-- The scan loop of `FindResource`: Go evaluates `parts[0]` whenever the
loop body runs and, because `&&` short-circuits, `parts[1]` only after the
`Type` comparison succeeds; an index beyond the split result is a runtime
panic (`none`).  String comparison is done on the character lists, which is
the same relation as Go string equality. -/
def findFrom (parts : List (List Char)) (name : String) :
    List Resource → Option (Except ConfigError Resource)
  | [] => some (Except.error (ConfigError.ResourceNotFoundError name))
  | r :: rest =>
    match parts.get? 0 with
    | none => none
    | some p0 =>
      if r.info.type_.toList = p0 then
        match parts.get? 1 with
        | none => none
        | some p1 =>
          if r.info.Name.toList = p1 then some (Except.ok r)
          else findFrom parts name rest
      else findFrom parts name rest

/-- config.FindResource: splits the name on `"."` (every occurrence, as
`strings.Split` does) and scans the resource list for the first resource
whose `Type` equals `parts[0]` and whose `Name` equals `parts[1]`. -/
def FindResource (c : Config) (name : String) : Option (Except ConfigError Resource) :=
  findFrom (splitDot name.toList) name c.Resources

/-- config.AddResource, threading the config state: looks up the address
`fmt.Sprintf("%s.%s", Type, Name)`; if the lookup returned a non-nil error
that `xerrors.Is`-matches `ResourceNotFoundError{}` (the zero value, with an
empty `Name`) it returns `ResourceExistsError` without appending; otherwise
it appends `r` to `c.Resources` and returns a nil error. -/
def AddResource (c : Config) (r : Resource) : Option (Option ConfigError × Config) :=
  match FindResource c (r.info.type_ ++ "." ++ r.info.Name) with
  | none => none
  | some (Except.error e) =>
    if xerrorsIs e (ConfigError.ResourceNotFoundError "") then
      some (some (ConfigError.ResourceExistsError r.info.Name), c)
    else
      some (none, { c with Resources := c.Resources ++ [r] })
  | some (Except.ok _) =>
    some (none, { c with Resources := c.Resources ++ [r] })

/-- config.ResourceCount: the number of resources in a config. -/
def ResourceCount (c : Config) : Nat :=
  c.Resources.length

/-- Modelled from the spec: `NewNetwork` is declared in a repository file
that is not among the sources.  Per the spec (section 3), creation yields a
resource of the `network` variant whose `Status` is always
`PendingCreation` initially and whose dependency list is empty. -/
def NewNetwork (name : String) : Resource :=
  { info := { Name := name, type_ := "network", Status := Status.pending_creation, DependsOn := [] }
    Subnet := "" }

set_option linter.unusedVariables false

/-- config.New: creates a new Config.  The function constructs the default
WAN network and sets its subnet, but returns the config without adding the
network to it. -/
def New : Config :=
  let c : Config := {}
  let wan := { NewNetwork "wan" with Subnet := "10.200.0.0/16" }
  c

/-- The `dag.AcyclicGraph` handle built by `DoYaLikeDAGs`, embedded as its
vertex and edge sets (kept as duplicate-free lists).  A vertex is an
`Option Resource` because the Go code can pass a nil interface value as the
dependency endpoint of an edge; `none` models that nil vertex. -/
structure Graph where
  vertices : List (Option Resource) := []
  edges : List (Option Resource × Option Resource) := []
deriving DecidableEq, Repr

/-- `dag.Graph.Add`: adds the vertex to the vertex set (no-op when the
vertex is already present). -/
def Graph.add (g : Graph) (v : Option Resource) : Graph :=
  if v ∈ g.vertices then g else { g with vertices := g.vertices ++ [v] }

/-- `dag.Graph.Connect(dag.BasicEdge(src, tgt))`: adds both endpoints to the
vertex set and the directed edge `src → tgt` to the edge set (no-op when the
edge is already present).  It performs no cycle check. -/
def Graph.connect (g : Graph) (src tgt : Option Resource) : Graph :=
  if (src, tgt) ∈ ((g.add src).add tgt).edges then (g.add src).add tgt
  else
    { (g.add src).add tgt with
        edges := ((g.add src).add tgt).edges ++ [(src, tgt)] }

/-- The first loop of `DoYaLikeDAGs`: `graph.Add(resource)` for every
registered resource. -/
def addNodes (g : Graph) (rs : List Resource) : Graph :=
  rs.foldl (fun g r => g.add (some r)) g

/-- The inner loop of `DoYaLikeDAGs` over `resource.Info().DependsOn`,
threading the graph being built and the registry state: each address is
looked up with `c.FindResource`; only when the returned error
`xerrors.Is`-matches `ResourceNotFoundError{}` (zero value, empty `Name`)
does the function return the wrapped error; otherwise it connects the edge
`dependency → resource`, where `dependency` is the nil interface (`none`)
whenever the lookup failed. -/
def connectDeps (resource : Resource) :
    List String → Graph → Config → Option (Except ConfigError Graph × Config)
  | [], g, c => some (Except.ok g, c)
  | d :: rest, g, c =>
    match FindResource c d with
    | none => none
    | some (Except.error e) =>
      if xerrorsIs e (ConfigError.ResourceNotFoundError "") then
        some (Except.error
          (ConfigError.WrappedError "Could not build graph from resources" e), c)
      else connectDeps resource rest (g.connect none (some resource)) c
    | some (Except.ok dep) =>
      connectDeps resource rest (g.connect (some dep) (some resource)) c

/-- The second loop of `DoYaLikeDAGs` over the resources, threading the
graph and the registry state. -/
def connectAll :
    List Resource → Graph → Config → Option (Except ConfigError Graph × Config)
  | [], g, c => some (Except.ok g, c)
  | r :: rest, g, c =>
    match connectDeps r r.info.DependsOn g c with
    | some (Except.ok g2, c2) => connectAll rest g2 c2
    | other => other

/-- config.DoYaLikeDAGs, threading the registry state: builds a fresh graph,
adds every registered resource as a node, then adds one edge per `DependsOn`
entry.  The result pairs the Go return value (graph or error) with the
config state after the call; the outer `Option` is `none` when a lookup
panics. -/
def DoYaLikeDAGs (c : Config) : Option (Except ConfigError Graph × Config) :=
  let graph : Graph := {}
  let graph := addNodes graph c.Resources
  connectAll c.Resources graph c

/-- Modelled from the spec: `ErrorWANExists` is declared in a repository
file that is not among the sources; the spec requires a distinct
"already exists" condition for redeclaring the reserved `wan` network at
load time.  Decode failures from `gohcl.DecodeBody` are external HCL
behaviour and are out of scope of the claims, so they have no constructor
here. -/
inductive LoadError where
  | ErrorWANExists
deriving DecidableEq, Repr

/-- An HCL block after syntax parsing: its block type tag and its labels.
The block body handed to `gohcl.DecodeBody` is external HCL state; decoding
is modelled from the spec as succeeding and as populating only
variant-specific fields, which are opaque to the core (spec section 3). -/
structure Block where
  type_ : String
  Labels : List String
deriving DecidableEq, Repr

/-- Modelled from the spec: `NewCluster` is declared in a repository file
that is not among the sources; creation yields a `cluster` resource in
`PendingCreation` with no dependencies. -/
def NewCluster (name : String) : Resource :=
  { info := { Name := name, type_ := "cluster", Status := Status.pending_creation, DependsOn := [] }
    Subnet := "" }

/-- Modelled from the spec: the constructors for the remaining variants
(helm, k8s_config, ingress, container, docs, exec_local, exec_remote) are in
repository files that are not among the sources; each yields a resource of
its type tag in `PendingCreation` with no dependencies. -/
def newResourceOf (tag name : String) : Resource :=
  { info := { Name := name, type_ := tag, Status := Status.pending_creation, DependsOn := [] }
    Subnet := "" }

/-- The type tags of the switch arms of `ParseHCLFile` other than cluster
and network; the tag strings are modelled from the spec's variant list. -/
def otherResourceTags : List String :=
  ["helm", "k8s_config", "ingress", "container", "docs", "exec_local", "exec_remote"]

/-- The block-dispatch loop of `ParseHCLFile` (the part after HCL syntax
parsing, which is external).  Mirrors the Go switch: the cluster and network
arms are embedded individually; the seven remaining arms, which differ only
in constructor and in external path normalization, are folded into one
membership test.  Note the network arm checks `b.Labels[0] == "wan"` before
constructing or adding anything, and every arm ignores the error returned by
`AddResource`.  `b.Labels[0]` on a label-less block is a runtime panic
(`none`). -/
def parseBlocks : List Block → Config → Option (Option LoadError × Config)
  | [], c => some (none, c)
  | b :: rest, c =>
    if b.type_ = "cluster" then
      match b.Labels.get? 0 with
      | none => none
      | some l0 =>
        match AddResource c (NewCluster l0) with
        | none => none
        | some (_, c2) => parseBlocks rest c2
    else if b.type_ = "network" then
      match b.Labels.get? 0 with
      | none => none
      | some l0 =>
        if l0 = "wan" then some (some LoadError.ErrorWANExists, c)
        else
          match AddResource c (NewNetwork l0) with
          | none => none
          | some (_, c2) => parseBlocks rest c2
    else if b.type_ ∈ otherResourceTags then
      match b.Labels.get? 0 with
      | none => none
      | some l0 =>
        match AddResource c (newResourceOf b.type_ l0) with
        | none => none
        | some (_, c2) => parseBlocks rest c2
    else parseBlocks rest c

/-! ## Concrete configurations used by the claim theorems -/

/-- `container.a`, depending on `container.b`. -/
def rA : Resource :=
  { info := { Name := "a", type_ := "container", Status := Status.pending_creation,
              DependsOn := ["container.b"] } }

/-- `container.b`, depending on `container.a`. -/
def rB : Resource :=
  { info := { Name := "b", type_ := "container", Status := Status.pending_creation,
              DependsOn := ["container.a"] } }

/-- A registry whose dependency relation is the two-cycle a ↔ b. -/
def cycCfg : Config := { Resources := [rA, rB] }

/-- `container.a` depending on the unregistered address `network.missing`. -/
def rMiss : Resource :=
  { info := { Name := "a", type_ := "container", Status := Status.pending_creation,
              DependsOn := ["network.missing"] } }

/-- A registry with a single unresolvable `DependsOn` entry. -/
def missCfg : Config := { Resources := [rMiss] }

/-- `container.a`, already applied. -/
def rDup1 : Resource :=
  { info := { Name := "a", type_ := "container", Status := Status.applied, DependsOn := [] } }

/-- A second, distinct resource with the same `(Type, Name)` address as `rDup1`. -/
def rDup2 : Resource :=
  { info := { Name := "a", type_ := "container", Status := Status.pending_creation,
              DependsOn := [] } }

/-- The registry holding `rDup1` alone. -/
def dupCfg : Config := { Resources := [rDup1] }

/-- The registry after the (supposedly failing) second add of `container.a`. -/
def dupCfg2 : Config := { Resources := [rDup1, rDup2] }

/-- A container whose `Name` itself contains the `.` separator. -/
def rDotted : Resource :=
  { info := { Name := "a.b", type_ := "container", Status := Status.pending_creation,
              DependsOn := [] } }

/-- The registry holding only the dotted-name resource. -/
def dottedCfg : Config := { Resources := [rDotted] }

/-- A registry holding a cluster, for the malformed-address lookup. -/
def k3sCfg : Config := { Resources := [NewCluster "k3s"] }

/-! ## Claim theorems -/

/-- C1: the claim says a second `AddResource` of an already-present
`(Type, Name)` address fails with `ResourceExists` and leaves the count
unchanged.  The code disagrees: when the address is already present,
`FindResource` returns a nil error, so the guard `err != nil` is skipped and
the duplicate is appended with a nil error — the dead `xerrors.Is`
comparison against the zero-valued `ResourceNotFoundError{}` means
`AddResource` can never return `ResourceExistsError` at all.  This theorem
evaluates the code at the failing input: the second add of `container.a`
returns a nil error and grows the count from 1 to 2. -/
theorem addResource_duplicate_succeeds_eval :
    AddResource dupCfg rDup2 = some (none, dupCfg2)
      ∧ ResourceCount dupCfg = 1 ∧ ResourceCount dupCfg2 = 2 := by
  decide

/-- C2: the claim says a registry whose dependency relation contains a cycle
makes `DoYaLikeDAGs` fail with a `DependencyCycle` error and that the build
never returns a graph containing a cycle.  The code performs no cycle
validation whatsoever (it only calls `graph.Add` and `graph.Connect`; no
`DependencyCycle` error value even exists in the package): on the two-cycle
`container.a` ↔ `container.b` the build returns a graph containing both
edges of the cycle with a nil error. -/
theorem doYaLikeDAGs_cycle_returned_eval :
    DoYaLikeDAGs cycCfg
        = some (Except.ok
            { vertices := [some rA, some rB]
              edges := [(some rB, some rA), (some rA, some rB)] }, cycCfg)
      ∧ (some rA, some rB) ∈
          ({ vertices := [some rA, some rB]
             edges := [(some rB, some rA), (some rA, some rB)] } : Graph).edges
      ∧ (some rB, some rA) ∈
          ({ vertices := [some rA, some rB]
             edges := [(some rB, some rA), (some rA, some rB)] } : Graph).edges := by
  decide

/-- C3: the claim says an unresolvable `DependsOn` address makes
`DoYaLikeDAGs` fail with a wrapped `ResourceNotFound` error and return no
graph.  The code's guard `xerrors.Is(err, ResourceNotFoundError{})` compares
the produced `ResourceNotFoundError{address}` against the zero value with an
empty `Name`, which never matches for the nonempty addresses an unresolved
dependency produces; the error path is dead, the nil lookup result is
connected as a vertex, and the build returns a graph (containing a nil
vertex and an edge out of it) with a nil error. -/
theorem doYaLikeDAGs_missing_dep_succeeds_eval :
    DoYaLikeDAGs missCfg
      = some (Except.ok
          { vertices := [some rMiss, none]
            edges := [(none, some rMiss)] }, missCfg) := by
  decide

/-- C4: the claim says `FindResource` on an address with zero separators
fails deterministically with a `MalformedAddress` error and never panics.
The code defines no `MalformedAddress` error at all, and on the address
`"cluster"` against a registry containing a resource of type `cluster` it
indexes `parts[1]` of a one-element split — a runtime index-out-of-range
panic, modelled as `none`. -/
theorem findResource_no_separator_panics_eval :
    FindResource k3sCfg "cluster" = none := by
  decide

/-- C5 counterexample: `rDup2` is added via a succeeding `AddResource` call
(after `rDup1`, which shares its `(Type, Name)` address), yet
`FindResource "container.a"` on the resulting registry returns the earlier
`rDup1`, not `rDup2` — so not every resource added via `AddResource` is
returned by the round-trip lookup. -/
theorem findResource_roundtrip_cx :
    AddResource {} rDup1 = some (none, dupCfg)
      ∧ AddResource dupCfg rDup2 = some (none, dupCfg2)
      ∧ FindResource dupCfg2 "container.a" = some (Except.ok rDup1)
      ∧ rDup1 ≠ rDup2 := by
  decide

/-- C6 counterexample: on a registry with one unresolvable dependency the
build nonetheless succeeds, and the returned graph's node set is not the set
of registered resources: it contains the nil vertex `none`, and an edge out
of that nil vertex. -/
theorem graph_nodes_edges_cx :
    DoYaLikeDAGs missCfg
        = some (Except.ok
            { vertices := [some rMiss, none]
              edges := [(none, some rMiss)] }, missCfg)
      ∧ (none : Option Resource) ∈
          ({ vertices := [some rMiss, none]
             edges := [(none, some rMiss)] } : Graph).vertices
      ∧ ({ vertices := [some rMiss, none]
           edges := [(none, some rMiss)] } : Graph).vertices
          ≠ missCfg.Resources.map some := by
  decide

/-- C7 counterexample: the claim says a resource whose `Name` contains a
`.` is found by its full `type.name` address, because only the first
separator splits.  The code splits on every separator and compares the
segment between the first and second separators against `Name`, so
`container.a.b` does not find the resource named `a.b`: the lookup fails
with `ResourceNotFound`. -/
theorem findResource_dotted_name_cx :
    FindResource dottedCfg "container.a.b"
      = some (Except.error (ConfigError.ResourceNotFoundError "container.a.b")) := by
  decide

/-- C9: whenever the block loop of `ParseHCLFile` reaches a block of type
`network` whose first label is `"wan"`, it returns `ErrorWANExists` at once
and leaves the config exactly as it was: no resource is constructed and
`AddResource` is never called, so the check fires ahead of the registry's
own duplicate handling and regardless of the registry's contents or of the
remaining blocks. -/
theorem parseHCLFile_wan_guard (c : Config) (b : Block) (rest : List Block)
    (ht : b.type_ = "network") (hl : b.Labels.get? 0 = some "wan") :
    parseBlocks (b :: rest) c = some (some LoadError.ErrorWANExists, c) := by
  have hl2 : b.Labels[0]? = some "wan" := by rw [← List.get?_eq_getElem?]; exact hl
  simp [parseBlocks, ht, hl2]

/-- Witness for C9 at a concrete input: a single `network "wan"` block
against the fresh empty config. -/
theorem parseHCLFile_wan_guard_witness :
    parseBlocks [{ type_ := "network", Labels := ["wan"] }] {}
      = some (some LoadError.ErrorWANExists, {}) :=
  parseHCLFile_wan_guard {} { type_ := "network", Labels := ["wan"] } [] rfl rfl

/-- Whatever `connectDeps` returns — early error, completed loop, or panic —
the threaded registry state comes back unchanged: no iteration writes to the
config. -/
theorem connectDeps_config_eq (resource : Resource) (deps : List String) :
    ∀ (g : Graph) (c : Config) (res : Except ConfigError Graph) (c2 : Config),
      connectDeps resource deps g c = some (res, c2) → c2 = c := by
  induction deps with
  | nil =>
    intro g c res c2 h
    simp only [connectDeps, Option.some.injEq, Prod.mk.injEq] at h
    exact h.2.symm
  | cons d rest ih =>
    intro g c res c2 h
    simp only [connectDeps] at h
    split at h
    · simp at h
    · split at h
      · simp only [Option.some.injEq, Prod.mk.injEq] at h
        exact h.2.symm
      · exact ih _ _ _ _ h
    · exact ih _ _ _ _ h

/-- The outer loop of `DoYaLikeDAGs` likewise returns the registry state it
was given. -/
theorem connectAll_config_eq (rs : List Resource) :
    ∀ (g : Graph) (c : Config) (res : Except ConfigError Graph) (c2 : Config),
      connectAll rs g c = some (res, c2) → c2 = c := by
  induction rs with
  | nil =>
    intro g c res c2 h
    simp only [connectAll, Option.some.injEq, Prod.mk.injEq] at h
    exact h.2.symm
  | cons r rest ih =>
    intro g c res c2 h
    simp only [connectAll] at h
    split at h
    · rename_i g2 c1 hcd
      have hc1 : c1 = c := connectDeps_config_eq r _ _ _ _ _ hcd
      exact (ih _ _ _ _ h).trans hc1
    · exact connectDeps_config_eq r r.info.DependsOn g c res c2 h

/-- C8: graph building is read-only on the registry.  Whether the call
returns a graph or an error, the config that comes back is the config that
went in — the resource list and every resource's fields (`Status`
included) are unchanged.  (When a lookup panics, the call returns nothing
at all and no state was written either.) -/
theorem doYaLikeDAGs_readonly (c : Config) (res : Except ConfigError Graph)
    (c2 : Config) (h : DoYaLikeDAGs c = some (res, c2)) : c2 = c := by
  unfold DoYaLikeDAGs at h
  exact connectAll_config_eq _ _ _ _ _ h

/-- Witness for C8 at a concrete input: the cyclic two-resource registry,
on which the build succeeds and hands back the unchanged registry. -/
theorem doYaLikeDAGs_readonly_witness : cycCfg = cycCfg :=
  doYaLikeDAGs_readonly cycCfg
    (Except.ok
      { vertices := [some rA, some rB]
        edges := [(some rB, some rA), (some rA, some rB)] })
    cycCfg (by decide)

/-- `strings.Split` never yields an empty slice. -/
theorem splitDot_ne_nil (l : List Char) : splitDot l ≠ [] := by
  cases l with
  | nil => simp [splitDot]
  | cons a rest =>
    simp only [splitDot]
    split
    · simp
    · split
      · simp
      · simp

/-- No segment produced by the split contains the separator. -/
theorem mem_splitDot_no_dot (l : List Char) : ∀ p ∈ splitDot l, '.' ∉ p := by
  induction l with
  | nil =>
    intro p hp
    simp only [splitDot, List.mem_singleton] at hp
    subst hp
    simp
  | cons a rest ih =>
    intro p hp
    simp only [splitDot] at hp
    by_cases ha : a = '.'
    · rw [if_pos ha] at hp
      rcases List.mem_cons.mp hp with h | h
      · subst h; simp
      · exact ih p h
    · rw [if_neg ha] at hp
      cases hs : splitDot rest with
      | nil => exact absurd hs (splitDot_ne_nil rest)
      | cons q qs =>
        rw [hs] at hp
        rcases List.mem_cons.mp hp with h | h
        · subst h
          intro hmem
          rcases List.mem_cons.mp hmem with h2 | h2
          · exact ha h2.symm
          · exact ih q (by rw [hs]; exact List.mem_cons_self q qs) h2
        · exact ih p (by rw [hs]; exact List.mem_cons_of_mem q h)

/-- Splitting a separator-free string yields that single segment. -/
theorem splitDot_no_dot (l : List Char) (h : '.' ∉ l) : splitDot l = [l] := by
  induction l with
  | nil => rfl
  | cons a rest ih =>
    have ha : ¬ a = '.' := by intro e; subst e; exact h (List.mem_cons_self _ _)
    have hrest : '.' ∉ rest := fun hm => h (List.mem_cons_of_mem _ hm)
    simp only [splitDot, if_neg ha, ih hrest]

/-- Splitting `t ++ "." ++ n` when `t` is separator-free peels off `t` as
the first segment. -/
theorem splitDot_sep (t n : List Char) (h : '.' ∉ t) :
    splitDot (t ++ '.' :: n) = t :: splitDot n := by
  induction t with
  | nil => simp [splitDot]
  | cons a t ih =>
    have ha : ¬ a = '.' := by intro e; subst e; exact h (List.mem_cons_self _ _)
    have ht : '.' ∉ t := fun hm => h (List.mem_cons_of_mem _ hm)
    rw [List.cons_append]
    simp only [splitDot, if_neg ha, ih ht]

/-- Anatomy of a successful lookup: the returned resource is one of the
scanned resources, and its `Type` and `Name` equal the first and second
segments of the split. -/
theorem findFrom_ok {parts : List (List Char)} {name : String} :
    ∀ {rs : List Resource} {r : Resource},
      findFrom parts name rs = some (Except.ok r) →
      r ∈ rs ∧ ∃ p0 p1, parts.get? 0 = some p0 ∧ parts.get? 1 = some p1 ∧
        r.info.type_.toList = p0 ∧ r.info.Name.toList = p1 := by
  intro rs
  induction rs with
  | nil =>
    intro r h
    simp only [findFrom, Option.some.injEq] at h
    exact absurd h (by simp)
  | cons x rest ih =>
    intro r h
    simp only [findFrom] at h
    split at h
    · simp at h
    · rename_i p0 hp0
      split at h
      · rename_i htype
        split at h
        · simp at h
        · rename_i p1 hp1
          split at h
          · rename_i hname
            simp only [Option.some.injEq, Except.ok.injEq] at h
            subst h
            exact ⟨List.mem_cons_self _ _, p0, p1, hp0, hp1, htype, hname⟩
          · obtain ⟨hmem, hrest⟩ := ih h
            exact ⟨List.mem_cons_of_mem _ hmem, hrest⟩
      · obtain ⟨hmem, hrest⟩ := ih h
        exact ⟨List.mem_cons_of_mem _ hmem, hrest⟩

/-- A successful `FindResource` returns one of the registered resources. -/
theorem findResource_ok_mem {c : Config} {name : String} {r : Resource}
    (h : FindResource c name = some (Except.ok r)) : r ∈ c.Resources :=
  (findFrom_ok h).1

/-- C7 (amended): `FindResource` splits on every separator and compares the
segment between the first and second separators against `Name`; since no
split segment contains a separator, a resource whose `Name` contains `.`
is never returned by any lookup, under any address. -/
theorem findResource_dotted_name_never_found (r : Resource)
    (h : '.' ∈ r.info.Name.toList) (c : Config) (name : String) :
    FindResource c name ≠ some (Except.ok r) := by
  intro hfind
  obtain ⟨_, p0, p1, hp0, hp1, htype, hname⟩ := findFrom_ok hfind
  have hp1mem : p1 ∈ splitDot name.toList := List.get?_mem hp1
  have hnd : '.' ∉ p1 := mem_splitDot_no_dot _ p1 hp1mem
  rw [hname] at h
  exact hnd h

/-- Witness for the amended C7 at a concrete input: the resource named
`a.b` is not returned by the lookup of its own full address. -/
theorem findResource_dotted_name_never_found_witness :
    FindResource dottedCfg "container.a.b" ≠ some (Except.ok rDotted) :=
  findResource_dotted_name_never_found rDotted (by decide) dottedCfg "container.a.b"

/-- When no scanned resource matches both segments, the scan returns
`ResourceNotFoundError` with the raw address. -/
theorem findFrom_not_found {p0 p1 : List Char} (name : String) :
    ∀ (rs : List Resource),
      (∀ x ∈ rs, ¬ (x.info.type_.toList = p0 ∧ x.info.Name.toList = p1)) →
      findFrom [p0, p1] name rs
        = some (Except.error (ConfigError.ResourceNotFoundError name)) := by
  intro rs
  induction rs with
  | nil => intro _; rfl
  | cons x rest ih =>
    intro hno
    simp only [findFrom, List.get?]
    by_cases ht : x.info.type_.toList = p0
    · rw [if_pos ht]
      have hn : ¬ x.info.Name.toList = p1 :=
        fun hn => hno x (List.mem_cons_self _ _) ⟨ht, hn⟩
      rw [if_neg hn]
      exact ih fun y hy => hno y (List.mem_cons_of_mem _ hy)
    · rw [if_neg ht]
      exact ih fun y hy => hno y (List.mem_cons_of_mem _ hy)

/-- Appending a matching resource after non-matching ones makes the scan
find exactly it. -/
theorem findFrom_append_found {p0 p1 : List Char} (name : String) (r : Resource)
    (ht : r.info.type_.toList = p0) (hn : r.info.Name.toList = p1) :
    ∀ (rs : List Resource),
      (∀ x ∈ rs, ¬ (x.info.type_.toList = p0 ∧ x.info.Name.toList = p1)) →
      findFrom [p0, p1] name (rs ++ [r]) = some (Except.ok r) := by
  intro rs
  induction rs with
  | nil =>
    intro _
    simp only [List.nil_append, findFrom, List.get?, if_pos ht, if_pos hn]
  | cons x rest ih =>
    intro hno
    rw [List.cons_append]
    simp only [findFrom, List.get?]
    by_cases hxt : x.info.type_.toList = p0
    · rw [if_pos hxt]
      have hxn : ¬ x.info.Name.toList = p1 :=
        fun h2 => hno x (List.mem_cons_self _ _) ⟨hxt, h2⟩
      rw [if_neg hxn]
      exact ih fun y hy => hno y (List.mem_cons_of_mem _ hy)
    · rw [if_neg hxt]
      exact ih fun y hy => hno y (List.mem_cons_of_mem _ hy)

/-- The character list of the composed address `Type ++ "." ++ Name`. -/
theorem address_toList (t n : String) :
    (t ++ "." ++ n).toList = t.toList ++ '.' :: n.toList := by
  show (t ++ "." ++ n).data = t.data ++ '.' :: n.data
  rw [String.data_append, String.data_append, List.append_assoc]
  rfl

/-- C5 (amended): for a resource whose `Type` and `Name` are separator-free
and whose `(Type, Name)` address is not yet taken, `AddResource` appends it
with a nil error and the round-trip lookup of `Type ++ "." ++ Name` on the
resulting registry returns exactly that resource.  (The original claim fails
both for dotted names and for duplicate addresses, which `AddResource`
accepts; see the counterexample.) -/
theorem addResource_roundtrip_amended (c : Config) (r : Resource)
    (hT : '.' ∉ r.info.type_.toList) (hN : '.' ∉ r.info.Name.toList)
    (hfresh : ∀ x ∈ c.Resources,
      ¬ (x.info.type_ = r.info.type_ ∧ x.info.Name = r.info.Name)) :
    AddResource c r = some (none, { c with Resources := c.Resources ++ [r] })
      ∧ FindResource { c with Resources := c.Resources ++ [r] }
          (r.info.type_ ++ "." ++ r.info.Name) = some (Except.ok r) := by
  have haddr := address_toList r.info.type_ r.info.Name
  have hsplit : splitDot (r.info.type_ ++ "." ++ r.info.Name).toList
      = [r.info.type_.toList, r.info.Name.toList] := by
    rw [haddr, splitDot_sep _ _ hT, splitDot_no_dot _ hN]
  have hfresh2 : ∀ x ∈ c.Resources,
      ¬ (x.info.type_.toList = r.info.type_.toList
          ∧ x.info.Name.toList = r.info.Name.toList) := by
    intro x hx ⟨h1, h2⟩
    exact hfresh x hx ⟨String.toList_inj.mp h1, String.toList_inj.mp h2⟩
  have hnotfound : FindResource c (r.info.type_ ++ "." ++ r.info.Name)
      = some (Except.error (ConfigError.ResourceNotFoundError
          (r.info.type_ ++ "." ++ r.info.Name))) := by
    unfold FindResource
    rw [hsplit]
    exact findFrom_not_found _ _ hfresh2
  have haddrne : r.info.type_ ++ "." ++ r.info.Name ≠ "" := by
    intro he
    have h2 := congrArg String.toList he
    rw [haddr, String.toList_empty] at h2
    simp at h2
  have hxe : xerrorsIs
      (ConfigError.ResourceNotFoundError (r.info.type_ ++ "." ++ r.info.Name))
      (ConfigError.ResourceNotFoundError "") = false := by
    simp [xerrorsIs, haddrne]
  constructor
  · unfold AddResource
    rw [hnotfound]
    simp [hxe]
  · unfold FindResource
    rw [hsplit]
    exact findFrom_append_found _ r rfl rfl c.Resources hfresh2

/-- Witness for the amended C5 at a concrete input: adding `cluster.k3s` to
the registry already holding `container.a` and looking it back up. -/
theorem addResource_roundtrip_amended_witness :
    AddResource dupCfg (NewCluster "k3s")
        = some (none, { dupCfg with Resources := dupCfg.Resources ++ [NewCluster "k3s"] })
      ∧ FindResource { dupCfg with Resources := dupCfg.Resources ++ [NewCluster "k3s"] }
          ((NewCluster "k3s").info.type_ ++ "." ++ (NewCluster "k3s").info.Name)
        = some (Except.ok (NewCluster "k3s")) :=
  addResource_roundtrip_amended dupCfg (NewCluster "k3s")
    (by decide) (by decide) (by decide)

/-- Vertex membership after `Add`. -/
theorem Graph.mem_add (g : Graph) (v w : Option Resource) :
    w ∈ (g.add v).vertices ↔ w ∈ g.vertices ∨ w = v := by
  unfold Graph.add
  split
  · rename_i hv
    constructor
    · exact Or.inl
    · rintro (h | h)
      · exact h
      · exact h ▸ hv
  · simp [List.mem_append]

/-- `Add` leaves the edge set alone. -/
theorem Graph.add_edges (g : Graph) (v : Option Resource) :
    (g.add v).edges = g.edges := by
  unfold Graph.add
  split <;> rfl

/-- `Connect` touches the vertex set only through the two `Add`s. -/
theorem Graph.connect_vertices (g : Graph) (s t : Option Resource) :
    (g.connect s t).vertices = ((g.add s).add t).vertices := by
  unfold Graph.connect
  split <;> rfl

/-- Vertex membership after `Connect`. -/
theorem Graph.mem_connect_vertices (g : Graph) (s t w : Option Resource) :
    w ∈ (g.connect s t).vertices ↔ w ∈ g.vertices ∨ w = s ∨ w = t := by
  rw [Graph.connect_vertices, Graph.mem_add, Graph.mem_add, or_assoc]

/-- Edge membership after `Connect`. -/
theorem Graph.mem_connect_edges (g : Graph) (s t : Option Resource)
    (e : Option Resource × Option Resource) :
    e ∈ (g.connect s t).edges ↔ e ∈ g.edges ∨ e = (s, t) := by
  unfold Graph.connect
  split
  · rename_i hmem
    rw [Graph.add_edges, Graph.add_edges] at hmem ⊢
    constructor
    · exact Or.inl
    · rintro (h | h)
      · exact h
      · exact h ▸ hmem
  · show e ∈ ((g.add s).add t).edges ++ [(s, t)] ↔ _
    rw [Graph.add_edges, Graph.add_edges]
    simp [List.mem_append]

/-- The node-adding loop creates no edges. -/
theorem addNodes_edges (rs : List Resource) :
    ∀ g : Graph, (addNodes g rs).edges = g.edges := by
  induction rs with
  | nil => intro g; rfl
  | cons r rest ih =>
    intro g
    show (addNodes (g.add (some r)) rest).edges = g.edges
    rw [ih, Graph.add_edges]

/-- Vertex membership after the node-adding loop. -/
theorem mem_addNodes (rs : List Resource) :
    ∀ (g : Graph) (v : Option Resource),
      v ∈ (addNodes g rs).vertices ↔ v ∈ g.vertices ∨ ∃ r ∈ rs, v = some r := by
  induction rs with
  | nil => intro g v; simp [addNodes]
  | cons r rest ih =>
    intro g v
    show v ∈ (addNodes (g.add (some r)) rest).vertices ↔ _
    rw [ih, Graph.mem_add]
    constructor
    · rintro ((h | h) | ⟨x, hx, hv⟩)
      · exact Or.inl h
      · exact Or.inr ⟨r, List.mem_cons_self _ _, h⟩
      · exact Or.inr ⟨x, List.mem_cons_of_mem _ hx, hv⟩
    · rintro (h | ⟨x, hx, hv⟩)
      · exact Or.inl (Or.inl h)
      · rcases List.mem_cons.mp hx with h2 | h2
        · subst h2; exact Or.inl (Or.inr hv)
        · exact Or.inr ⟨x, h2, hv⟩

/-- When every address in the dependency list resolves, the inner loop
completes without error and adds exactly the vertices and edges of the
resolved dependencies. -/
theorem connectDeps_resolved (c : Config) (resource : Resource) :
    ∀ (deps : List String) (g : Graph),
      (∀ d ∈ deps, ∃ dep, FindResource c d = some (Except.ok dep)) →
      ∃ g2, connectDeps resource deps g c = some (Except.ok g2, c)
        ∧ (∀ v, v ∈ g2.vertices ↔ v ∈ g.vertices
            ∨ ∃ d ∈ deps, ∃ dep, FindResource c d = some (Except.ok dep)
                ∧ (v = some dep ∨ v = some resource))
        ∧ (∀ e, e ∈ g2.edges ↔ e ∈ g.edges
            ∨ ∃ d ∈ deps, ∃ dep, FindResource c d = some (Except.ok dep)
                ∧ e = (some dep, some resource)) := by
  intro deps
  induction deps with
  | nil =>
    intro g _
    exact ⟨g, rfl, by simp, by simp⟩
  | cons d rest ih =>
    intro g h
    obtain ⟨dep, hdep⟩ := h d (List.mem_cons_self _ _)
    have hrest : ∀ d2 ∈ rest, ∃ dp, FindResource c d2 = some (Except.ok dp) :=
      fun d2 hd2 => h d2 (List.mem_cons_of_mem _ hd2)
    obtain ⟨g2, heq, hv, he⟩ := ih (g.connect (some dep) (some resource)) hrest
    refine ⟨g2, ?_, ?_, ?_⟩
    · simp only [connectDeps, hdep]
      exact heq
    · intro v
      rw [hv v, Graph.mem_connect_vertices]
      constructor
      · rintro ((h1 | h1 | h1) | ⟨d2, hd2, dp, hdp, hvv⟩)
        · exact Or.inl h1
        · exact Or.inr ⟨d, List.mem_cons_self _ _, dep, hdep, Or.inl h1⟩
        · exact Or.inr ⟨d, List.mem_cons_self _ _, dep, hdep, Or.inr h1⟩
        · exact Or.inr ⟨d2, List.mem_cons_of_mem _ hd2, dp, hdp, hvv⟩
      · rintro (h1 | ⟨d2, hd2, dp, hdp, hvv⟩)
        · exact Or.inl (Or.inl h1)
        · rcases List.mem_cons.mp hd2 with h2 | h2
          · subst h2
            rw [hdep] at hdp
            simp only [Option.some.injEq, Except.ok.injEq] at hdp
            subst hdp
            rcases hvv with h3 | h3
            · exact Or.inl (Or.inr (Or.inl h3))
            · exact Or.inl (Or.inr (Or.inr h3))
          · exact Or.inr ⟨d2, h2, dp, hdp, hvv⟩
    · intro e
      rw [he e, Graph.mem_connect_edges]
      constructor
      · rintro ((h1 | h1) | ⟨d2, hd2, dp, hdp, hee⟩)
        · exact Or.inl h1
        · exact Or.inr ⟨d, List.mem_cons_self _ _, dep, hdep, h1⟩
        · exact Or.inr ⟨d2, List.mem_cons_of_mem _ hd2, dp, hdp, hee⟩
      · rintro (h1 | ⟨d2, hd2, dp, hdp, hee⟩)
        · exact Or.inl (Or.inl h1)
        · rcases List.mem_cons.mp hd2 with h2 | h2
          · subst h2
            rw [hdep] at hdp
            simp only [Option.some.injEq, Except.ok.injEq] at hdp
            subst hdp
            exact Or.inl (Or.inr hee)
          · exact Or.inr ⟨d2, h2, dp, hdp, hee⟩

/-- When every `DependsOn` address of every resource resolves, the outer
loop completes without error and its net effect on the graph is exactly one
edge per resolved dependency (plus the endpoints as vertices). -/
theorem connectAll_resolved (c : Config) :
    ∀ (rs : List Resource) (g : Graph),
      (∀ r ∈ rs, ∀ d ∈ r.info.DependsOn,
        ∃ dep, FindResource c d = some (Except.ok dep)) →
      ∃ g2, connectAll rs g c = some (Except.ok g2, c)
        ∧ (∀ v, v ∈ g2.vertices ↔ v ∈ g.vertices
            ∨ ∃ r ∈ rs, ∃ d ∈ r.info.DependsOn, ∃ dep,
                FindResource c d = some (Except.ok dep) ∧ (v = some dep ∨ v = some r))
        ∧ (∀ e, e ∈ g2.edges ↔ e ∈ g.edges
            ∨ ∃ r ∈ rs, ∃ d ∈ r.info.DependsOn, ∃ dep,
                FindResource c d = some (Except.ok dep) ∧ e = (some dep, some r)) := by
  intro rs
  induction rs with
  | nil =>
    intro g _
    exact ⟨g, rfl, by simp, by simp⟩
  | cons r rest ih =>
    intro g h
    obtain ⟨g1, heq1, hv1, he1⟩ :=
      connectDeps_resolved c r r.info.DependsOn g (h r (List.mem_cons_self _ _))
    obtain ⟨g2, heq2, hv2, he2⟩ :=
      ih g1 (fun r2 h2 => h r2 (List.mem_cons_of_mem _ h2))
    refine ⟨g2, ?_, ?_, ?_⟩
    · simp only [connectAll, heq1]
      exact heq2
    · intro v
      rw [hv2 v, hv1 v]
      constructor
      · rintro ((h1 | ⟨d, hd, dp, hdp, hvv⟩) | ⟨r2, hr2, d, hd, dp, hdp, hvv⟩)
        · exact Or.inl h1
        · exact Or.inr ⟨r, List.mem_cons_self _ _, d, hd, dp, hdp, hvv⟩
        · exact Or.inr ⟨r2, List.mem_cons_of_mem _ hr2, d, hd, dp, hdp, hvv⟩
      · rintro (h1 | ⟨r2, hr2, d, hd, dp, hdp, hvv⟩)
        · exact Or.inl (Or.inl h1)
        · rcases List.mem_cons.mp hr2 with h2 | h2
          · subst h2
            exact Or.inl (Or.inr ⟨d, hd, dp, hdp, hvv⟩)
          · exact Or.inr ⟨r2, h2, d, hd, dp, hdp, hvv⟩
    · intro e
      rw [he2 e, he1 e]
      constructor
      · rintro ((h1 | ⟨d, hd, dp, hdp, hee⟩) | ⟨r2, hr2, d, hd, dp, hdp, hee⟩)
        · exact Or.inl h1
        · exact Or.inr ⟨r, List.mem_cons_self _ _, d, hd, dp, hdp, hee⟩
        · exact Or.inr ⟨r2, List.mem_cons_of_mem _ hr2, d, hd, dp, hdp, hee⟩
      · rintro (h1 | ⟨r2, hr2, d, hd, dp, hdp, hee⟩)
        · exact Or.inl (Or.inl h1)
        · rcases List.mem_cons.mp hr2 with h2 | h2
          · subst h2
            exact Or.inl (Or.inr ⟨d, hd, dp, hdp, hee⟩)
          · exact Or.inr ⟨r2, h2, d, hd, dp, hdp, hee⟩

/-- C6 (amended): when every `DependsOn` address of every registered
resource resolves (to a registered resource) via `FindResource`, the build
succeeds and the returned graph's node set is exactly the set of registered
resources — isolated resources included and no nil vertex — and its edge
set contains exactly the edge `D → R` for every resource `R` and resolved
dependency `D` of `R`, and no others.  (Without the resolvability premise
the build can succeed with a nil vertex in the node set; see the
counterexample.) -/
theorem doYaLikeDAGs_nodes_edges_amended (c : Config)
    (h : ∀ r ∈ c.Resources, ∀ d ∈ r.info.DependsOn,
        ∃ dep ∈ c.Resources, FindResource c d = some (Except.ok dep)) :
    ∃ g, DoYaLikeDAGs c = some (Except.ok g, c)
      ∧ (∀ v, v ∈ g.vertices ↔ ∃ r ∈ c.Resources, v = some r)
      ∧ (∀ e, e ∈ g.edges ↔ ∃ r ∈ c.Resources, ∃ d ∈ r.info.DependsOn,
          ∃ dep, FindResource c d = some (Except.ok dep) ∧ e = (some dep, some r)) := by
  have h2 : ∀ r ∈ c.Resources, ∀ d ∈ r.info.DependsOn,
      ∃ dep, FindResource c d = some (Except.ok dep) := by
    intro r hr d hd
    obtain ⟨dep, _, hdep⟩ := h r hr d hd
    exact ⟨dep, hdep⟩
  obtain ⟨g2, heq, hv, he⟩ :=
    connectAll_resolved c c.Resources (addNodes {} c.Resources) h2
  refine ⟨g2, heq, ?_, ?_⟩
  · intro v
    rw [hv v, mem_addNodes]
    constructor
    · rintro ((h1 | h1) | ⟨r, hr, d, hd, dep, hdep, hvv⟩)
      · exact absurd h1 (by simp)
      · exact h1
      · rcases hvv with h3 | h3
        · exact ⟨dep, findResource_ok_mem hdep, h3⟩
        · exact ⟨r, hr, h3⟩
    · rintro ⟨r, hr, hvv⟩
      exact Or.inl (Or.inr ⟨r, hr, hvv⟩)
  · intro e
    rw [he e, addNodes_edges]
    constructor
    · rintro (h1 | h1)
      · exact absurd h1 (by simp)
      · exact h1
    · exact Or.inr

/-- Witness for the amended C6 at a concrete input: the two-resource
registry whose dependencies all resolve (the a ↔ b registry — the build
does not mind the cycle). -/
theorem doYaLikeDAGs_nodes_edges_amended_witness :
    ∃ g, DoYaLikeDAGs cycCfg = some (Except.ok g, cycCfg)
      ∧ (∀ v, v ∈ g.vertices ↔ ∃ r ∈ cycCfg.Resources, v = some r)
      ∧ (∀ e, e ∈ g.edges ↔ ∃ r ∈ cycCfg.Resources, ∃ d ∈ r.info.DependsOn,
          ∃ dep, FindResource cycCfg d = some (Except.ok dep) ∧ e = (some dep, some r)) :=
  doYaLikeDAGs_nodes_edges_amended cycCfg (by decide)

/-- C10: `New` constructs the default `wan` network (subnet
`10.200.0.0/16`) but never adds it to the returned config: the result has a
nil blueprint and an empty resource list, so `ResourceCount` is 0. -/
theorem new_config_empty :
    New = { Blueprint := none, Resources := [] } ∧ ResourceCount New = 0 := by
  decide

example :
    FindResource { Resources := [NewNetwork "n1"] } "network.n1"
      = some (Except.ok (NewNetwork "n1")) := by decide

example :
    FindResource { Resources := [NewNetwork "n1"] } "network" = none := by decide

example :
    FindResource { Resources := [NewNetwork "n1"] } "network.n1.x"
      = some (Except.ok (NewNetwork "n1")) := by decide

example :
    FindResource { Resources := [NewNetwork "n1"] } "cluster.x"
      = some (Except.error (ConfigError.ResourceNotFoundError "cluster.x")) := by decide
